import Mathlib

/-!
Verification of the ThreadPool repository (ejgdlyz/ThreadPool).

The development shallowly embeds the two implementations found in the
repository:

* `src/final_version/threadpool.h` — the future-style pool: the pool state
  (`ThreadPool`), its configuration setters, `start`, the accept/grow path of
  `submitTask`, the queue-full path of `submitTask`, and the decisions and
  state updates of the worker dispatch loop `threadFunc`.  The concurrent
  executions of `submitTask`, `threadFunc` and the destructor are modelled as
  a small-step transition relation `PoolStep` on pool states (each step is one
  critical section executed under `taskQueMtx_`, or one task execution done
  outside the lock); `PoolReach` is its reflexive-transitive closure from a
  configured, started pool.  Steps follow the lifecycle protocol documented in
  the specification (submissions happen while the pool is running; `shutdown`
  — the destructor — is the last client operation), wall-clock time is
  abstracted: the 1s waits of the condition variables are modelled by which
  predicate the wait observes, and the idle-duration measured by a cached
  worker is a nondeterministic parameter of its step.

* `src/threadpool.cpp` / `src/threadpool.h` — the result-object design:
  `Any` (type-erased value, RTTI modelled by a tag with decidable equality),
  `Semaphore` (its resource counter), and `Result` (`setAny` / `get`), with
  a blocking `get` modelled as an `Option`-valued function (`none` = the
  caller would block now).

Machine integers (`size_t`, `atomic_int`, `atomic_uint`) are modelled as `ℕ`;
none of the embedded operations comes near an overflow boundary, and the
counter updates that would underflow in ℕ are shown to be guarded (the code
only decrements counters that are positive in every reachable state).
-/

/-- Constant `TASK_MAX_THRESHOLD` from threadpool.h: default bound of the task queue. -/
def TASK_MAX_THRESHOLD : ℕ := 1024

/-- Constant `THREAD_MAX_THRESHOLD` from threadpool.h: default bound on the worker count. -/
def THREAD_MAX_THRESHOLD : ℕ := 10

/-- Constant `THREAD_MAX_IDLE_TIME` from threadpool.h: idle seconds before a cached worker is reaped. -/
def THREAD_MAX_IDLE_TIME : ℕ := 10

/-- `enum class PoolMode` from threadpool.h. -/
inductive PoolMode where
  | MODE_FIXED
  | MODE_CACHED
  deriving DecidableEq, Repr

/-- State of one `ThreadPool` object (fields of the class in
`src/final_version/threadpool.h`), together with the bookkeeping the
concurrency model needs: `threads` is the key set of the registry
`threads_` (an `unordered_map` keyed by thread id), `busy` is the set of
worker ids currently executing a task outside the lock (between the
`idleThreadSize_--` of a dequeue and the `idleThreadSize_++` after `task()`
returns), and `generateId` is `Thread::generateId_`, the id counter used for
newly created workers.  Tasks are abstracted to the `ℕ` ids of their
submissions; the queue `taskQue` is FIFO as in the source. -/
structure ThreadPool where
  poolMode : PoolMode
  isPoolRunning : Bool
  initThreadSize : ℕ
  threadSizeThresHold : ℕ
  taskQueMaxThreshold : ℕ
  curThreadSize : ℕ
  idleThreadSize : ℕ
  taskQue : List ℕ
  taskSize : ℕ
  generateId : ℕ
  threads : Finset ℕ
  busy : Finset ℕ
  deriving DecidableEq

/-- `ThreadPool::ThreadPool()` — the constructed, unconfigured, unstarted pool. -/
def ThreadPool.mkPool : ThreadPool :=
  { poolMode := PoolMode.MODE_FIXED
    isPoolRunning := false
    initThreadSize := 0
    threadSizeThresHold := THREAD_MAX_THRESHOLD
    taskQueMaxThreshold := TASK_MAX_THRESHOLD
    curThreadSize := 0
    idleThreadSize := 0
    taskQue := []
    taskSize := 0
    generateId := 0
    threads := ∅
    busy := ∅ }

/-- `ThreadPool::checkRunningState()`. -/
def ThreadPool.checkRunningState (s : ThreadPool) : Bool :=
  s.isPoolRunning

/-- `ThreadPool::setMode`: a no-op when the pool is running. -/
def ThreadPool.setMode (s : ThreadPool) (mode : PoolMode) : ThreadPool :=
  if s.checkRunningState then s else { s with poolMode := mode }

/-- `ThreadPool::setTaskQueMaxThreshold`: a no-op when the pool is running. -/
def ThreadPool.setTaskQueMaxThreshold (s : ThreadPool) (threshold : ℕ) : ThreadPool :=
  if s.checkRunningState then s else { s with taskQueMaxThreshold := threshold }

/-- `ThreadPool::setThreadSizeThreshold`: a no-op when the pool is running,
and also when the mode is not `MODE_CACHED`. -/
def ThreadPool.setThreadSizeThreshold (s : ThreadPool) (threshold : ℕ) : ThreadPool :=
  if s.checkRunningState then s
  else if s.poolMode = PoolMode.MODE_CACHED then { s with threadSizeThresHold := threshold }
  else s

/-- `ThreadPool::start(initThreadSize)`: marks the pool running, records the
initial size, creates `n` worker records with ids `generateId_ .. generateId_ + n - 1`
(each `Thread` constructor takes `generateId_++`), and counts them all idle. -/
def ThreadPool.start (s : ThreadPool) (n : ℕ) : ThreadPool :=
  { s with
    isPoolRunning := true
    initThreadSize := n
    curThreadSize := n
    threads := s.threads ∪ (Finset.range n).image (fun i => s.generateId + i)
    generateId := s.generateId + n
    idleThreadSize := s.idleThreadSize + n }

/-- The accepted path of `ThreadPool::submitTask` (final_version, lines
151-173), one critical section under `taskQueMtx_`: the task is pushed at the
back of the queue, `taskSize_` is incremented, and then — the cached-growth
branch — if the mode is `MODE_CACHED`, the (incremented) task count exceeds
`idleThreadSize_` and `curThreadSize_ < threadSizeThresHold_`, exactly one new
worker record is created (id `generateId_++`), registered and started, and
`curThreadSize_` and `idleThreadSize_` are incremented.  (The source starts
`threads_[curThreadSize_]` rather than the new record; which OS thread gets
started is not observable in this state model, which tracks the registry keys
and the counters.) -/
def ThreadPool.enqueueGrow (s : ThreadPool) (t : ℕ) : ThreadPool :=
  let s1 : ThreadPool := { s with taskQue := s.taskQue ++ [t], taskSize := s.taskSize + 1 }
  if s1.poolMode = PoolMode.MODE_CACHED ∧ s1.idleThreadSize < s1.taskSize ∧
      s1.curThreadSize < s1.threadSizeThresHold then
    { s1 with
      threads := insert s1.generateId s1.threads
      generateId := s1.generateId + 1
      curThreadSize := s1.curThreadSize + 1
      idleThreadSize := s1.idleThreadSize + 1 }
  else s1

/-- A `std::future`-like handle, as returned by `submitTask` in the
final_version design: either still pending on a queued task, or already
holding a value. -/
inductive Future (α : Type) where
  | pending (taskId : ℕ)
  | ready (v : α)
  deriving DecidableEq

/-- A non-blocking view of `future::get`: `some v` when the value is already
available, `none` when the caller would have to block for a worker. -/
def Future.tryGet {α : Type} : Future α → Option α
  | .ready v => some v
  | .pending _ => none

/-- `ThreadPool::submitTask` (final_version): the 1s `notFull_.wait_for`
succeeds exactly when the predicate `taskQue_.size() < taskQueMaxThreshold_`
can be observed within the window; the hypothesis of interest for the
queue-full claims is that the queue stays at capacity for the whole window,
in which case the wait returns `false`, the pool state is untouched, and a
fresh `packaged_task` returning `RType()` (here: `default`) is run once so
that the returned future is already resolved.  On success the task is
enqueued (with the cached-growth branch) and the future is pending. -/
def ThreadPool.submitTask (α : Type) [Inhabited α] (s : ThreadPool) (t : ℕ) :
    ThreadPool × Future α :=
  if s.taskQue.length < s.taskQueMaxThreshold then
    (s.enqueueGrow t, Future.pending t)
  else
    (s, Future.ready default)

/-- The outcome of one pass through the wait loop at the top of
`ThreadPool::threadFunc` (final_version, lines 214-260). -/
inductive WorkerAction where
  | exitStop
  | reap
  | keepWaiting
  | dequeue
  deriving DecidableEq

/-- The decision made by a worker holding `taskQueMtx_` at the top of the
dispatch loop of `ThreadPool::threadFunc` (final_version): while the queue is
empty, a stopped pool makes the worker deregister and exit; otherwise in
`MODE_CACHED`, if the 1s `notEmpty_.wait_for` timed out, the accumulated idle
time reached `THREAD_MAX_IDLE_TIME` and `curThreadSize_ > initThreadSize_`,
the worker reaps itself, else it keeps waiting; with a non-empty queue the
worker proceeds to dequeue. -/
def ThreadPool.threadFuncDecision (s : ThreadPool) (timedOut : Bool) (idleDur : ℕ) :
    WorkerAction :=
  if s.taskQue.length = 0 then
    if s.isPoolRunning = false then WorkerAction.exitStop
    else if s.poolMode = PoolMode.MODE_CACHED then
      if timedOut = true ∧ THREAD_MAX_IDLE_TIME ≤ idleDur ∧
          s.initThreadSize < s.curThreadSize then WorkerAction.reap
      else WorkerAction.keepWaiting
    else WorkerAction.keepWaiting
  else WorkerAction.dequeue

/-- Result of the dequeue critical section: the new pool state and which
condition variables the dequeuing worker notified. -/
structure DequeueResult where
  state : ThreadPool
  notifiedNotEmpty : Bool
  notifiedNotFull : Bool

/-- The dequeue critical section of `ThreadPool::threadFunc` (final_version,
lines 262-280), executed by worker `w` when the queue is non-empty:
`idleThreadSize_--`, pop the queue front, `taskSize_--`, then notify
`notEmpty_` exactly when the queue is still non-empty, and always notify
`notFull_`; the worker starts executing the task (enters `busy`). -/
def ThreadPool.dequeueTask (s : ThreadPool) (w : ℕ) : DequeueResult :=
  let s1 : ThreadPool :=
    { s with
      idleThreadSize := s.idleThreadSize - 1
      taskQue := s.taskQue.tail
      taskSize := s.taskSize - 1
      busy := insert w s.busy }
  { state := s1
    notifiedNotEmpty := decide (0 < s1.taskQue.length)
    notifiedNotFull := true }

/-- A worker finishing `task()` outside the lock (final_version, lines
283-290): leaves `busy` and does `idleThreadSize_++`. -/
def ThreadPool.completeTask (s : ThreadPool) (w : ℕ) : ThreadPool :=
  { s with busy := s.busy.erase w, idleThreadSize := s.idleThreadSize + 1 }

/-- The cached-mode shrink path of `ThreadPool::threadFunc` (final_version,
lines 242-252): the worker erases itself from the registry and decrements
`curThreadSize_` and `idleThreadSize_`. -/
def ThreadPool.reapWorker (s : ThreadPool) (w : ℕ) : ThreadPool :=
  { s with
    threads := s.threads.erase w
    curThreadSize := s.curThreadSize - 1
    idleThreadSize := s.idleThreadSize - 1 }

/-- The shutdown-exit path of `ThreadPool::threadFunc` (final_version, lines
226-232): with the pool stopped and the queue empty the worker erases itself
from the registry and notifies `exitCond_`; note the source updates no
counter on this path. -/
def ThreadPool.exitWorker (s : ThreadPool) (w : ℕ) : ThreadPool :=
  { s with threads := s.threads.erase w }

/-- `ThreadPool::~ThreadPool()`, first half: clears `isPoolRunning_` and wakes
the workers; the destructor then blocks on `exitCond_` until
`threads_.size() == 0`. -/
def ThreadPool.shutdownPool (s : ThreadPool) : ThreadPool :=
  { s with isPoolRunning := false }

/-- One interleaving step of the pool: each constructor is one critical
section under `taskQueMtx_` (or one out-of-lock task execution) of the
final_version source, taken by a producer, a registered worker, or the
destructor.  Producers submit while the pool is running and the destructor
runs after the last submission, per the lifecycle protocol of the
specification; workers act according to `threadFuncDecision`. -/
inductive PoolStep : ThreadPool → ThreadPool → Prop where
  | submit (s : ThreadPool) (t : ℕ) :
      s.isPoolRunning = true →
      s.taskQue.length < s.taskQueMaxThreshold →
      PoolStep s (s.enqueueGrow t)
  | dequeue (s : ThreadPool) (w : ℕ) :
      w ∈ s.threads → w ∉ s.busy → s.taskQue ≠ [] →
      PoolStep s (s.dequeueTask w).state
  | complete (s : ThreadPool) (w : ℕ) :
      w ∈ s.busy →
      PoolStep s (s.completeTask w)
  | reap (s : ThreadPool) (w : ℕ) (idleDur : ℕ) :
      w ∈ s.threads → w ∉ s.busy →
      s.threadFuncDecision true idleDur = WorkerAction.reap →
      PoolStep s (s.reapWorker w)
  | exitStop (s : ThreadPool) (w : ℕ) (timedOut : Bool) (idleDur : ℕ) :
      w ∈ s.threads → w ∉ s.busy →
      s.threadFuncDecision timedOut idleDur = WorkerAction.exitStop →
      PoolStep s (s.exitWorker w)
  | shutdown (s : ThreadPool) :
      s.isPoolRunning = true →
      PoolStep s s.shutdownPool

/-- A pool as it stands right after `start n` on a pool configured with the
given mode, queue bound and worker bound (see `startedPool_eq_start`). -/
def startedPool (m : PoolMode) (qmax tmax n : ℕ) : ThreadPool :=
  { poolMode := m
    isPoolRunning := true
    initThreadSize := n
    threadSizeThresHold := tmax
    taskQueMaxThreshold := qmax
    curThreadSize := n
    idleThreadSize := n
    taskQue := []
    taskSize := 0
    generateId := n
    threads := Finset.range n
    busy := ∅ }

/-- States reachable from a configured, started pool by interleaving steps. -/
inductive PoolReach (s0 : ThreadPool) : ThreadPool → Prop where
  | refl : PoolReach s0 s0
  | step {s s' : ThreadPool} : PoolReach s0 s → PoolStep s s' → PoolReach s0 s'

/-- The inductive invariant of the transition system, parametrized by the
start configuration.  The conditional fields carry the configuration
hypotheses they need (`n ≤ tmax` for the cached worker bound, `1 ≤ n` for the
drain property of shutdown). -/
structure PoolInv (m : PoolMode) (n tmax : ℕ) (s : ThreadPool) : Prop where
  mode_eq : s.poolMode = m
  init_eq : s.initThreadSize = n
  thresh_eq : s.threadSizeThresHold = tmax
  size_eq : s.taskSize = s.taskQue.length
  busy_sub : s.busy ⊆ s.threads
  idle_busy : s.idleThreadSize + s.busy.card = s.curThreadSize
  run_card : s.isPoolRunning = true → s.threads.card = s.curThreadSize
  card_le : s.threads.card ≤ s.curThreadSize
  run_init : s.isPoolRunning = true → n ≤ s.curThreadSize
  ids_lt : ∀ w ∈ s.threads, w < s.generateId
  cached_max : n ≤ tmax → s.curThreadSize ≤ tmax
  fixed_eq : m = PoolMode.MODE_FIXED → s.curThreadSize = n
  drained : 1 ≤ n → s.isPoolRunning = false → s.threads = ∅ → s.taskQue = []

/-- The RTTI universe of the result-object design (`src/threadpool.h`):
concrete C++ types that the demo code stores in `Any`.  `dynamic_cast`
succeeds exactly on an exact tag match; in particular `const char*` (the type
of `""` returned by `Result::get` on an invalid result) is a different tag
from `std::string`. -/
inductive CppType where
  | cInt
  | cULong
  | cString
  | cConstCharPtr
  | cBool
  deriving DecidableEq

/-- The Lean carrier of each C++ type tag. -/
def CppType.denote : CppType → Type
  | .cInt => Int
  | .cULong => ℕ
  | .cString => String
  | .cConstCharPtr => String
  | .cBool => Bool

/-- Class `Any` (`src/threadpool.h`): either a default-constructed `Any`
(null `base_`) or a `Derived<T>` holding a value of concrete type `T`. -/
inductive Any where
  | empty
  | mk (t : CppType) (v : t.denote)

/-- `Any::cast_<T>()`: `dynamic_cast` of `base_` to `Derived<T>*` succeeds
exactly when the stored concrete type is `T`; on a null or mismatched base it
throws `"type is unmatch!"` (modelled as `Except.error`). -/
def Any.cast_ (t : CppType) : Any → Except String t.denote
  | .empty => Except.error "type is unmatch!"
  | .mk u v => if h : u = t then Except.ok (h ▸ v) else Except.error "type is unmatch!"

/-- `Semaphore::wait()` on the resource counter: succeeds (and decrements)
when the counter is positive, otherwise the caller blocks (`none`). -/
def Semaphore.wait (resLimit : ℕ) : Option ℕ :=
  if 0 < resLimit then some (resLimit - 1) else none

/-- `Semaphore::post()` on the resource counter. -/
def Semaphore.post (resLimit : ℕ) : ℕ :=
  resLimit + 1

/-- State of a `Result` object (`src/threadpool.cpp`): the stored `any_`, the
resource counter of its `sem_`, and `isValid_`. -/
structure Result where
  any : Any
  sem : ℕ
  isValid : Bool

/-- `Result::Result(task, isValid)`: fresh channel, empty slot, semaphore at 0. -/
def Result.make (isValid : Bool) : Result :=
  { any := Any.empty, sem := 0, isValid := isValid }

/-- `Result::setAny` (worker side): store the task's return value and post the
semaphore. -/
def Result.setAny (r : Result) (a : Any) : Result :=
  { r with any := a, sem := Semaphore.post r.sem }

/-- `Result::get` (submitter side): on an invalid result, return `Any("")`
immediately — the semaphore is not touched; otherwise wait on the semaphore
(`none` while the counter is 0, i.e. the submitter blocks until the worker
posts) and move `any_` out.  `""` has C++ type `const char*`. -/
def Result.get (r : Result) : Option (Any × Result) :=
  if r.isValid = false then some (Any.mk CppType.cConstCharPtr "", r)
  else
    match Semaphore.wait r.sem with
    | some c => some (r.any, { r with any := Any.empty, sem := c })
    | none => none

/-- The explicit `startedPool` state is exactly `start n` applied to a freshly
constructed pool configured with the given mode and thresholds. -/
lemma startedPool_eq_start (m : PoolMode) (q tm n : ℕ) :
    startedPool m q tm n =
      ThreadPool.start
        { ThreadPool.mkPool with
          poolMode := m
          taskQueMaxThreshold := q
          threadSizeThresHold := tm } n := by
  simp [startedPool, ThreadPool.start, ThreadPool.mkPool, Finset.image_id]

/-- Inversion of the dispatch-loop decision: a `reap` outcome forces an empty
queue, a running pool, cached mode and a worker count above the initial one. -/
lemma reap_inversion (s : ThreadPool) (timedOut : Bool) (idleDur : ℕ)
    (h : s.threadFuncDecision timedOut idleDur = WorkerAction.reap) :
    s.taskQue = [] ∧ s.isPoolRunning = true ∧ s.poolMode = PoolMode.MODE_CACHED ∧
      s.initThreadSize < s.curThreadSize := by
  unfold ThreadPool.threadFuncDecision at h
  split_ifs at h with h1 h2 h3 h4
  · exact ⟨List.length_eq_zero.mp h1, by simpa using h2, h3, h4.2.2⟩

/-- Inversion of the dispatch-loop decision: an `exitStop` outcome forces an
empty queue and a stopped pool. -/
lemma exitStop_inversion (s : ThreadPool) (timedOut : Bool) (idleDur : ℕ)
    (h : s.threadFuncDecision timedOut idleDur = WorkerAction.exitStop) :
    s.taskQue = [] ∧ s.isPoolRunning = false := by
  unfold ThreadPool.threadFuncDecision at h
  split_ifs at h with h1 h2
  · exact ⟨List.length_eq_zero.mp h1, h2⟩

/-- The invariant holds right after `start`. -/
lemma startedPool_inv (m : PoolMode) (q tm n : ℕ) : PoolInv m n tm (startedPool m q tm n) := by
  refine ⟨rfl, rfl, rfl, rfl, ?_, ?_, ?_, ?_, ?_, ?_, ?_, ?_, ?_⟩ <;>
    simp [startedPool]

/-- The accepted `submitTask` critical section preserves the invariant. -/
lemma submit_inv {m : PoolMode} {n tm : ℕ} {s : ThreadPool} (t : ℕ)
    (hr : s.isPoolRunning = true) (I : PoolInv m n tm s) :
    PoolInv m n tm (s.enqueueGrow t) := by
  have hgen : s.generateId ∉ s.threads := fun h => lt_irrefl _ (I.ids_lt _ h)
  simp only [ThreadPool.enqueueGrow]
  split_ifs with hc
  · refine ⟨I.mode_eq, I.init_eq, I.thresh_eq, ?_, ?_, ?_, ?_, ?_, ?_, ?_, ?_, ?_, ?_⟩
    · have := I.size_eq; simp; omega
    · exact I.busy_sub.trans (Finset.subset_insert _ _)
    · have := I.idle_busy; simp; omega
    · intro _
      have h1 := I.run_card hr
      simp [Finset.card_insert_of_not_mem hgen]; omega
    · have := I.card_le
      simp [Finset.card_insert_of_not_mem hgen]; omega
    · intro _; have := I.run_init hr; simp; omega
    · intro w hw
      simp only [Finset.mem_insert] at hw
      have hgt : w = s.generateId ∨ w < s.generateId := by
        rcases hw with h | h
        · exact Or.inl h
        · exact Or.inr (I.ids_lt w h)
      simp; omega
    · intro hle
      have h3 : s.curThreadSize < tm := I.thresh_eq ▸ hc.2.2
      simp; omega
    · intro hm
      have h4 : s.poolMode = PoolMode.MODE_CACHED := hc.1
      rw [I.mode_eq, hm] at h4
      exact absurd h4 (by decide)
    · intro _ hstop
      simp only at hstop
      rw [hr] at hstop
      exact absurd hstop (by decide)
  · refine ⟨I.mode_eq, I.init_eq, I.thresh_eq, ?_, I.busy_sub, I.idle_busy, I.run_card,
      I.card_le, I.run_init, I.ids_lt, I.cached_max, I.fixed_eq, ?_⟩
    · have := I.size_eq; simp; omega
    · intro _ hstop
      simp only at hstop
      rw [hr] at hstop
      exact absurd hstop (by decide)

/-- A worker that is registered and not executing accounts for one positive
unit of `idleThreadSize_`: its decrements never underflow. -/
lemma idle_pos_of_waiting {m : PoolMode} {n tm : ℕ} {s : ThreadPool} {w : ℕ}
    (hw : w ∈ s.threads) (hwb : w ∉ s.busy) (I : PoolInv m n tm s) :
    1 ≤ s.idleThreadSize ∧ s.busy.card + 1 ≤ s.curThreadSize := by
  have hsub : s.busy ⊆ s.threads.erase w := Finset.subset_erase.mpr ⟨I.busy_sub, hwb⟩
  have h1 : s.busy.card ≤ (s.threads.erase w).card := Finset.card_le_card hsub
  have h2 : (s.threads.erase w).card = s.threads.card - 1 := Finset.card_erase_of_mem hw
  have h3 : 1 ≤ s.threads.card := Finset.card_pos.mpr ⟨w, hw⟩
  have h4 := I.card_le
  have h5 := I.idle_busy
  omega

/-- The dequeue critical section preserves the invariant. -/
lemma dequeue_inv {m : PoolMode} {n tm : ℕ} {s : ThreadPool} (w : ℕ)
    (hw : w ∈ s.threads) (hwb : w ∉ s.busy) (hne : s.taskQue ≠ [])
    (I : PoolInv m n tm s) : PoolInv m n tm (s.dequeueTask w).state := by
  obtain ⟨hidle, hbc⟩ := idle_pos_of_waiting hw hwb I
  have hlen : 1 ≤ s.taskQue.length := by
    cases h : s.taskQue with
    | nil => exact absurd h hne
    | cons a l => simp [h]
  simp only [ThreadPool.dequeueTask]
  refine ⟨I.mode_eq, I.init_eq, I.thresh_eq, ?_, ?_, ?_, I.run_card, I.card_le,
    I.run_init, I.ids_lt, I.cached_max, I.fixed_eq, ?_⟩
  · have := I.size_eq; simp [List.length_tail]; omega
  · simpa using Finset.insert_subset_iff.mpr ⟨hw, I.busy_sub⟩
  · have := I.idle_busy
    simp [Finset.card_insert_of_not_mem hwb]; omega
  · intro _ _ hthr
    simp only at hthr
    rw [hthr] at hw
    exact absurd hw (Finset.not_mem_empty w)

/-- Finishing a task outside the lock preserves the invariant. -/
lemma complete_inv {m : PoolMode} {n tm : ℕ} {s : ThreadPool} (w : ℕ)
    (hw : w ∈ s.busy) (I : PoolInv m n tm s) : PoolInv m n tm (s.completeTask w) := by
  have hbc : 1 ≤ s.busy.card := Finset.card_pos.mpr ⟨w, hw⟩
  simp only [ThreadPool.completeTask]
  refine ⟨I.mode_eq, I.init_eq, I.thresh_eq, I.size_eq, ?_, ?_, I.run_card, I.card_le,
    I.run_init, I.ids_lt, I.cached_max, I.fixed_eq, ?_⟩
  · exact (Finset.erase_subset _ _).trans I.busy_sub
  · have := I.idle_busy
    simp [Finset.card_erase_of_mem hw]; omega
  · exact I.drained

/-- The cached-mode shrink path preserves the invariant. -/
lemma reap_inv {m : PoolMode} {n tm : ℕ} {s : ThreadPool} (w idleDur : ℕ)
    (hw : w ∈ s.threads) (hwb : w ∉ s.busy)
    (hdec : s.threadFuncDecision true idleDur = WorkerAction.reap)
    (I : PoolInv m n tm s) : PoolInv m n tm (s.reapWorker w) := by
  obtain ⟨hq, hr, hm, hlt⟩ := reap_inversion s true idleDur hdec
  obtain ⟨hidle, hbc⟩ := idle_pos_of_waiting hw hwb I
  simp only [ThreadPool.reapWorker]
  refine ⟨I.mode_eq, I.init_eq, I.thresh_eq, I.size_eq, ?_, ?_, ?_, ?_, ?_, ?_, ?_, ?_, ?_⟩
  · exact Finset.subset_erase.mpr ⟨I.busy_sub, hwb⟩
  · have := I.idle_busy; simp; omega
  · intro _
    have h1 := I.run_card hr
    simp [Finset.card_erase_of_mem hw]; omega
  · have := I.card_le
    simp [Finset.card_erase_of_mem hw]; omega
  · intro _
    have h2 : n < s.curThreadSize := I.init_eq ▸ hlt
    simp; omega
  · intro v hv
    exact I.ids_lt v (Finset.mem_of_mem_erase hv)
  · intro hle
    have := I.cached_max hle
    simp; omega
  · intro hmf
    have h4 : s.poolMode = PoolMode.MODE_CACHED := hm
    rw [I.mode_eq, hmf] at h4
    exact absurd h4 (by decide)
  · intro _ hstop
    simp only at hstop
    rw [hr] at hstop
    exact absurd hstop (by decide)

/-- The shutdown-exit path of a worker preserves the invariant. -/
lemma exitStop_inv {m : PoolMode} {n tm : ℕ} {s : ThreadPool} (w : ℕ) (timedOut : Bool)
    (idleDur : ℕ) (hw : w ∈ s.threads) (hwb : w ∉ s.busy)
    (hdec : s.threadFuncDecision timedOut idleDur = WorkerAction.exitStop)
    (I : PoolInv m n tm s) : PoolInv m n tm (s.exitWorker w) := by
  obtain ⟨hq, hr⟩ := exitStop_inversion s timedOut idleDur hdec
  simp only [ThreadPool.exitWorker]
  refine ⟨I.mode_eq, I.init_eq, I.thresh_eq, I.size_eq, ?_, I.idle_busy, ?_, ?_, ?_, ?_,
    I.cached_max, I.fixed_eq, ?_⟩
  · exact Finset.subset_erase.mpr ⟨I.busy_sub, hwb⟩
  · intro hrun
    simp only at hrun
    rw [hr] at hrun
    exact absurd hrun (by decide)
  · have h1 := I.card_le
    have h2 : (s.threads.erase w).card = s.threads.card - 1 := Finset.card_erase_of_mem hw
    simp only
    omega
  · intro hrun
    simp only at hrun
    rw [hr] at hrun
    exact absurd hrun (by decide)
  · intro v hv
    exact I.ids_lt v (Finset.mem_of_mem_erase hv)
  · intro _ _ _
    exact hq

/-- The destructor clearing the running flag preserves the invariant; in
particular the drain property transfers because a running pool started with
at least one worker has a non-empty registry. -/
lemma shutdown_inv {m : PoolMode} {n tm : ℕ} {s : ThreadPool}
    (hr : s.isPoolRunning = true) (I : PoolInv m n tm s) :
    PoolInv m n tm s.shutdownPool := by
  simp only [ThreadPool.shutdownPool]
  refine ⟨I.mode_eq, I.init_eq, I.thresh_eq, I.size_eq, I.busy_sub, I.idle_busy, ?_,
    I.card_le, ?_, I.ids_lt, I.cached_max, I.fixed_eq, ?_⟩
  · intro hrun
    simp only at hrun
    exact absurd hrun (by decide)
  · intro hrun
    simp only at hrun
    exact absurd hrun (by decide)
  · intro hn _ hthr
    have h1 := I.run_card hr
    have h2 := I.run_init hr
    have h3 : s.threads.card = 0 := by
      simp only at hthr
      rw [hthr]
      exact Finset.card_empty
    omega

/-- Every interleaving step preserves the invariant. -/
lemma poolStep_inv {m : PoolMode} {n tm : ℕ} {s s' : ThreadPool}
    (hstep : PoolStep s s') (I : PoolInv m n tm s) : PoolInv m n tm s' := by
  cases hstep with
  | submit t hr hq => exact submit_inv t hr I
  | dequeue w hw hwb hne => exact dequeue_inv w hw hwb hne I
  | complete w hw => exact complete_inv w hw I
  | reap w idleDur hw hwb hdec => exact reap_inv w idleDur hw hwb hdec I
  | exitStop w timedOut idleDur hw hwb hdec => exact exitStop_inv w timedOut idleDur hw hwb hdec I
  | shutdown hr => exact shutdown_inv hr I

/-- The invariant holds in every state reachable from a configured, started pool. -/
lemma poolReach_inv {m : PoolMode} {q tm n : ℕ} {s : ThreadPool}
    (h : PoolReach (startedPool m q tm n) s) : PoolInv m n tm s := by
  induction h with
  | refl => exact startedPool_inv m q tm n
  | step _ hstep ih => exact poolStep_inv hstep ih

/-- Claim C1: when the enqueue wait of `submitTask` times out (the queue is at
maximum capacity for the whole 1s window, so the `notFull_.wait_for` predicate
never holds), `submitTask` leaves the pool untouched and returns a future that
is already resolved to the default value `RType()`; a subsequent `get` on that
future returns at once (`tryGet` is `some`) instead of blocking on a worker. -/
theorem submitTask_queue_full_immediate_default (α : Type) [Inhabited α] (s : ThreadPool)
    (t : ℕ) (hfull : s.taskQueMaxThreshold ≤ s.taskQue.length) :
    (ThreadPool.submitTask α s t).2 = Future.ready (default : α) ∧
    Future.tryGet (ThreadPool.submitTask α s t).2 = some (default : α) ∧
    (ThreadPool.submitTask α s t).1 = s := by
  have h : ¬ (s.taskQue.length < s.taskQueMaxThreshold) := by omega
  simp [ThreadPool.submitTask, h, Future.tryGet]

/-- Witness for C1: a pool whose queue bound is 0 is full at once; submitting
`5` yields a future whose value is already readable as the default `0`. -/
theorem submitTask_queue_full_immediate_default_witness :
    Future.tryGet
      (ThreadPool.submitTask ℕ (ThreadPool.mkPool.setTaskQueMaxThreshold 0) 5).2 = some 0 :=
  (submitTask_queue_full_immediate_default ℕ (ThreadPool.mkPool.setTaskQueMaxThreshold 0) 5
    (by decide)).2.1

/-- Claim C2 (amended): for a pool started with at least one worker, at any
reachable moment at which the destructor's wait is unblocked (running flag
cleared and worker registry empty) the task queue holds no un-dequeued task.
The amendment `1 ≤ n` is forced: with zero workers the registry is already
empty and shutdown unblocks with submitted tasks still queued
(see the counterexample). -/
theorem shutdown_unblocks_drained {m : PoolMode} {q tm n : ℕ} {s : ThreadPool}
    (h : PoolReach (startedPool m q tm n) s) (hn : 1 ≤ n)
    (hstop : s.isPoolRunning = false) (hempty : s.threads = ∅) :
    s.taskQue = [] :=
  (poolReach_inv h).drained hn hstop hempty

/-- Witness for C2: one worker, destructor clears the flag, the worker sees
the stopped pool and empty queue, deregisters; the unblocked state is drained. -/
theorem shutdown_unblocks_drained_witness :
    ((startedPool PoolMode.MODE_FIXED 4 10 1).shutdownPool.exitWorker 0).isPoolRunning = false ∧
    ((startedPool PoolMode.MODE_FIXED 4 10 1).shutdownPool.exitWorker 0).threads = ∅ ∧
    ((startedPool PoolMode.MODE_FIXED 4 10 1).shutdownPool.exitWorker 0).taskQue = [] :=
  ⟨by decide, by decide,
   shutdown_unblocks_drained
     (PoolReach.step (PoolReach.step PoolReach.refl (PoolStep.shutdown _ (by decide)))
       (PoolStep.exitStop _ 0 false 0 (by decide) (by decide) (by decide)))
     (by decide) (by decide) (by decide)⟩

/-- Counterexample to C2 as stated: a FIXED pool started with 0 workers
accepts a task; the destructor then finds `threads_.size() == 0` immediately,
so its `exitCond_` wait unblocks while the submitted task is still in the
queue, never dequeued. -/
theorem shutdown_unblocks_undrained_cex :
    PoolReach (startedPool PoolMode.MODE_FIXED 1024 10 0)
      ((startedPool PoolMode.MODE_FIXED 1024 10 0).enqueueGrow 7).shutdownPool ∧
    (((startedPool PoolMode.MODE_FIXED 1024 10 0).enqueueGrow 7).shutdownPool).isPoolRunning
        = false ∧
    (((startedPool PoolMode.MODE_FIXED 1024 10 0).enqueueGrow 7).shutdownPool).threads = ∅ ∧
    (((startedPool PoolMode.MODE_FIXED 1024 10 0).enqueueGrow 7).shutdownPool).taskQue ≠ [] :=
  ⟨PoolReach.step (PoolReach.step PoolReach.refl (PoolStep.submit _ 7 (by decide) (by decide)))
     (PoolStep.shutdown _ (by decide)),
   by decide, by decide, by decide⟩

/-- Claim C3: an accepted submission in CACHED mode with the (incremented)
pending task count above the idle worker count and the current worker count
below the threshold creates exactly one new worker, raising `curThreadSize_`
by exactly one; and no submission whatsoever raises the worker count above
`threadSizeThresHold_` (the growth branch is guarded by a strict bound). -/
theorem submitTask_cached_growth (s : ThreadPool) (t : ℕ)
    (hm : s.poolMode = PoolMode.MODE_CACHED)
    (hq : s.taskQue.length < s.taskQueMaxThreshold)
    (hp : s.idleThreadSize < s.taskSize + 1)
    (hc : s.curThreadSize < s.threadSizeThresHold) :
    (ThreadPool.submitTask Unit s t).1.curThreadSize = s.curThreadSize + 1 ∧
    ∀ (s2 : ThreadPool) (u : ℕ),
      s2.curThreadSize < (ThreadPool.submitTask Unit s2 u).1.curThreadSize →
      (ThreadPool.submitTask Unit s2 u).1.curThreadSize ≤ s2.threadSizeThresHold := by
  constructor
  · simp [ThreadPool.submitTask, hq, ThreadPool.enqueueGrow, hm, hp, hc]
  · intro s2 u hgt
    by_cases h2 : s2.taskQue.length < s2.taskQueMaxThreshold
    · simp only [ThreadPool.submitTask, if_pos h2] at hgt ⊢
      simp only [ThreadPool.enqueueGrow] at hgt ⊢
      split_ifs at hgt ⊢ with hc2
      · have := hc2.2.2
        simp at this ⊢
        omega
      · simp at hgt
    · simp only [ThreadPool.submitTask, if_neg h2] at hgt
      simp at hgt

/-- Witness for C3: a cached pool started with 0 workers grows to exactly 1
worker on its first accepted submission. -/
theorem submitTask_cached_growth_witness :
    (ThreadPool.submitTask Unit (startedPool PoolMode.MODE_CACHED 4 10 0) 0).1.curThreadSize =
      (startedPool PoolMode.MODE_CACHED 4 10 0).curThreadSize + 1 :=
  (submitTask_cached_growth _ 0 (by decide) (by decide) (by decide) (by decide)).1

/-- Claim C4: a cached worker whose 1s wait timed out on an empty queue of a
running pool, with accumulated idle time at least `THREAD_MAX_IDLE_TIME` and
the current worker count above the initial one, decides to reap itself; the
reap removes it from the registry and decrements `curThreadSize_` and
`idleThreadSize_` by one.  Moreover no interleaving step of a FIXED-mode pool
ever changes `curThreadSize_`. -/
theorem threadFunc_cached_shrink (s : ThreadPool) (w idleDur : ℕ)
    (hq : s.taskQue = []) (hr : s.isPoolRunning = true)
    (hm : s.poolMode = PoolMode.MODE_CACHED)
    (hto : THREAD_MAX_IDLE_TIME ≤ idleDur)
    (hgt : s.initThreadSize < s.curThreadSize) :
    s.threadFuncDecision true idleDur = WorkerAction.reap ∧
    w ∉ (s.reapWorker w).threads ∧
    (s.reapWorker w).curThreadSize = s.curThreadSize - 1 ∧
    (s.reapWorker w).idleThreadSize = s.idleThreadSize - 1 ∧
    ∀ (s2 s3 : ThreadPool), s2.poolMode = PoolMode.MODE_FIXED → PoolStep s2 s3 →
      s3.curThreadSize = s2.curThreadSize := by
  refine ⟨?_, Finset.not_mem_erase w s.threads, rfl, rfl, ?_⟩
  · simp [ThreadPool.threadFuncDecision, hq, hr, hm, hto, hgt]
  · intro s2 s3 hf hstep
    cases hstep with
    | submit t hr2 hq2 =>
        simp only [ThreadPool.enqueueGrow]
        split_ifs with hc
        · rw [hf] at hc
          exact absurd hc.1 (by decide)
        · rfl
    | dequeue w2 hw hwb hne => rfl
    | complete w2 hw => rfl
    | reap w2 d hw hwb hdec =>
        have hcac := (reap_inversion _ _ _ hdec).2.2.1
        rw [hf] at hcac
        exact absurd hcac (by decide)
    | exitStop w2 timedOut d hw hwb hdec => rfl
    | shutdown hr2 => rfl

/-- Witness for C4: a cached pool started with 0 workers that grew by one on a
submission and whose worker dequeued the task has an empty queue and
`curThreadSize_ = 1 > 0 = initThreadSize_`; a timed-out wait with 10 idle
seconds decides to reap. -/
theorem threadFunc_cached_shrink_witness :
    ((((startedPool PoolMode.MODE_CACHED 4 10 0).enqueueGrow 0).dequeueTask
        0).state).threadFuncDecision true 10 = WorkerAction.reap :=
  (threadFunc_cached_shrink _ 0 10 (by decide) (by decide) (by decide) (by decide) (by decide)).1

/-- Claim C5 (amended): in every reachable state of a pool started with
`n ≤ threadSizeThresHold_` workers, `idleThreadSize_ ≤ curThreadSize_ ≤
threadSizeThresHold_` (the lower bound `0 ≤ idleThreadSize_` is inherent in
the ℕ model and underflow-freedom is part of the invariant proof), and in
FIXED mode `curThreadSize_` stays equal to the initial count.  The amendment
`n ≤ tm` is forced: `start` never checks the threshold (see the
counterexample). -/
theorem pool_counter_invariants {m : PoolMode} {q tm n : ℕ} {s : ThreadPool}
    (h : PoolReach (startedPool m q tm n) s) (hn : n ≤ tm) :
    s.idleThreadSize ≤ s.curThreadSize ∧
    s.curThreadSize ≤ s.threadSizeThresHold ∧
    (m = PoolMode.MODE_FIXED → s.curThreadSize = n) := by
  have I := poolReach_inv h
  refine ⟨?_, ?_, I.fixed_eq⟩
  · have := I.idle_busy
    omega
  · rw [I.thresh_eq]
    exact I.cached_max hn

/-- Witness for C5: the invariant at the start state of a cached pool with two
initial workers and threshold 10. -/
theorem pool_counter_invariants_witness :
    (startedPool PoolMode.MODE_CACHED 4 10 2).idleThreadSize ≤
      (startedPool PoolMode.MODE_CACHED 4 10 2).curThreadSize :=
  (pool_counter_invariants PoolReach.refl (by decide)).1

/-- Counterexample to C5 as stated: `start(11)` on a cached pool with the
default threshold 10 is reachable (it is the start state itself) and already
violates `curThreadSize_ ≤ threadSizeThresHold_`, because `start` stores the
requested count without consulting the threshold. -/
theorem pool_counter_invariants_cex :
    PoolReach (startedPool PoolMode.MODE_CACHED 1024 10 11)
      (startedPool PoolMode.MODE_CACHED 1024 10 11) ∧
    (startedPool PoolMode.MODE_CACHED 1024 10 11).poolMode = PoolMode.MODE_CACHED ∧
    ¬ (startedPool PoolMode.MODE_CACHED 1024 10 11).curThreadSize ≤
        (startedPool PoolMode.MODE_CACHED 1024 10 11).threadSizeThresHold :=
  ⟨PoolReach.refl, by decide, by decide⟩

/-- Claim C6: each configuration call made while the pool is running is
rejected and the whole prior configuration is retained — `setMode`,
`setTaskQueMaxThreshold` and `setThreadSizeThreshold` all return the state
unchanged (the code reports the `InvalidState` rejection by returning early
with no effect). -/
theorem configure_after_start_rejected (s : ThreadPool) (mode : PoolMode) (qmax tmax : ℕ)
    (hr : s.isPoolRunning = true) :
    s.setMode mode = s ∧ s.setTaskQueMaxThreshold qmax = s ∧
      s.setThreadSizeThreshold tmax = s := by
  simp [ThreadPool.setMode, ThreadPool.setTaskQueMaxThreshold,
    ThreadPool.setThreadSizeThreshold, ThreadPool.checkRunningState, hr]

/-- Witness for C6: switching a started FIXED pool to CACHED mode is ignored. -/
theorem configure_after_start_rejected_witness :
    (startedPool PoolMode.MODE_FIXED 4 10 1).setMode PoolMode.MODE_CACHED =
      startedPool PoolMode.MODE_FIXED 4 10 1 :=
  (configure_after_start_rejected _ PoolMode.MODE_CACHED 0 0 (by decide)).1

/-- Claim C7: round-trip through the Result Channel — for every supported
concrete type and every value, `setAny` followed by `get` hands the very same
`Any` to the submitter (the posted semaphore makes `get` return), and
extracting it with the matching type gives back exactly the stored value. -/
theorem result_roundtrip (t : CppType) (v : t.denote) (r : Result) (hv : r.isValid = true) :
    (r.setAny (Any.mk t v)).get =
      some (Any.mk t v, { r with any := Any.empty, sem := r.sem }) ∧
    Any.cast_ t (Any.mk t v) = Except.ok v := by
  constructor
  · simp [Result.setAny, Result.get, Semaphore.wait, Semaphore.post, hv]
  · cases t <;> rfl

/-- Witness for C7: a fresh valid channel round-trips the `int` value 3. -/
theorem result_roundtrip_witness :
    ((Result.make true).setAny (Any.mk CppType.cInt (3 : Int))).get =
      some (Any.mk CppType.cInt (3 : Int),
        { Result.make true with any := Any.empty, sem := (Result.make true).sem }) ∧
    Any.cast_ CppType.cInt (Any.mk CppType.cInt (3 : Int)) = Except.ok (3 : Int) :=
  result_roundtrip CppType.cInt (3 : Int) (Result.make true) rfl

/-- Claim C8: extraction from the type-erased slot with a mismatched concrete
type fails loudly with the thrown `"type is unmatch!"` (never a truncated or
reinterpreted value — `cast_` returns no value at all on mismatch), and with
the matching type it returns the stored value. -/
theorem cast_type_checked (t u : CppType) (v : u.denote) :
    (u ≠ t → Any.cast_ t (Any.mk u v) = Except.error "type is unmatch!") ∧
    ∀ w : t.denote, Any.cast_ t (Any.mk t w) = Except.ok w := by
  constructor
  · intro hne
    simp [Any.cast_, hne]
  · intro w
    cases t <;> rfl

/-- Witness for C8: extracting a stored `bool` as `int` throws; extracting a
stored `int` as `int` yields the value. -/
theorem cast_type_checked_witness :
    Any.cast_ CppType.cInt (Any.mk CppType.cBool true) = Except.error "type is unmatch!" ∧
    Any.cast_ CppType.cInt (Any.mk CppType.cInt (5 : Int)) = Except.ok (5 : Int) :=
  ⟨(cast_type_checked CppType.cInt CppType.cBool true).1 (by decide),
   (cast_type_checked CppType.cInt CppType.cBool true).2 (5 : Int)⟩

/-- Claim C9: after a successful dequeue the worker always notifies
`notFull_`, and it notifies `notEmpty_` again if and only if the queue length
after the pop is still positive. -/
theorem dequeue_signal_discipline (s : ThreadPool) (w : ℕ) (hne : s.taskQue ≠ []) :
    (s.dequeueTask w).notifiedNotFull = true ∧
    ((s.dequeueTask w).notifiedNotEmpty = true ↔
      0 < (s.dequeueTask w).state.taskQue.length) := by
  refine ⟨rfl, ?_⟩
  simp [ThreadPool.dequeueTask]

/-- Witness for C9: dequeuing the only task notifies `notFull_` and the
`notEmpty_` re-signal is equivalent to the (empty) remaining queue being
non-empty. -/
theorem dequeue_signal_discipline_witness :
    ((ThreadPool.mkPool.enqueueGrow 3).dequeueTask 0).notifiedNotFull = true ∧
    (((ThreadPool.mkPool.enqueueGrow 3).dequeueTask 0).notifiedNotEmpty = true ↔
      0 < ((ThreadPool.mkPool.enqueueGrow 3).dequeueTask 0).state.taskQue.length) :=
  dequeue_signal_discipline _ 0 (by decide)

/-- Claim C10: `Result::get` on an invalid handle returns immediately — it
never touches the semaphore (the equation holds for every counter value,
including 0, where a valid `get` would block) — and the value is
`Any("")` of concrete type `const char*`; extracting it with any other type
throws `"type is unmatch!"`, so a failed submission yields no default of the
task's declared result type. -/
theorem invalid_result_get_default (r : Result) (hv : r.isValid = false) :
    r.get = some (Any.mk CppType.cConstCharPtr "", r) ∧
    ∀ t : CppType, t ≠ CppType.cConstCharPtr →
      Any.cast_ t (Any.mk CppType.cConstCharPtr "") = Except.error "type is unmatch!" := by
  constructor
  · simp [Result.get, hv]
  · intro t ht
    have hne : CppType.cConstCharPtr ≠ t := fun h => ht h.symm
    simp [Any.cast_, hne]

/-- Witness for C10: a fresh invalid channel (semaphore at 0) yields `Any("")`
without blocking, and extracting that as `std::string` throws. -/
theorem invalid_result_get_default_witness :
    (Result.make false).get = some (Any.mk CppType.cConstCharPtr "", Result.make false) ∧
    Any.cast_ CppType.cString (Any.mk CppType.cConstCharPtr "") =
      Except.error "type is unmatch!" :=
  ⟨(invalid_result_get_default (Result.make false) rfl).1,
   (invalid_result_get_default (Result.make false) rfl).2 CppType.cString (by decide)⟩
